import Mathlib

/-!
# BASED-storyteller: verification of the driver loop, shutdown and routing

A shallow embedding of `src/bot/bot.py`. The driver loop (`on_ready`,
lines 303-315), the shutdown sequence (`BasedClient.shutdown`,
lines 108-125), the database load functions (lines 145-176), the reaction
routing handlers (lines 426-457) and the `run` entry point (lines 483-492)
are translated into executable Lean definitions producing explicit event
traces; modules of the repository that are referenced but whose sources are
not available (`scheduling.TimedTaskHeap`, the `databases` package, `cfg`)
are modelled from the specification and marked as such in their doc
comments.
-/

namespace Based

/-- Observable events emitted by the driver loop and the shutdown sequence
of `bot.py`.  `sleep` is the `asyncio.sleep` call at the top of the loop
body; `pollStart` records the instant the poll sequence of a tick begins;
`dbSaveExpiryCheck`, `menusTaskChecking` and `updatesExpiryCheck` are the
three poll calls of lines 308-310; `killCheck` is the read of
`killer.kill_now` at line 312; the remaining constructors are the steps of
`BasedClient.shutdown`: `deleteMenu` a successful `menu.delete()`,
`deleteRaised` a `menu.delete()` that raised, `setLoggedInFalse` line 121,
`logout` line 122, `saveAllDBs` line 123 carrying the ids of the reaction
menus flushed to disk, `shutdownComplete` the completion message of
line 124 and `httpClientClose` line 125. -/
inductive Event where
  | sleep (secs : Nat)
  | pollStart (time : Nat)
  | dbSaveExpiryCheck
  | menusTaskChecking
  | updatesExpiryCheck
  | killCheck (value : Bool)
  | deleteMenu (id : Nat)
  | deleteRaised (id : Nat)
  | setLoggedInFalse
  | logout
  | saveAllDBs (menuIds : List Nat)
  | shutdownComplete
  | httpClientClose
deriving DecidableEq, Repr

/-- Modelled from the spec: a reaction menu as far as the shutdown sequence
observes it (the `reactionMenus` module is not under `src/`).  `saveable`
is read by `BasedClient.shutdown`; `deleteFails` models whether this
menu's `delete()` coroutine raises when awaited (the code in `bot.py` does
not wrap the call in any handler, so the possibility is made explicit). -/
structure Menu where
  saveable : Bool
  deleteFails : Bool
deriving DecidableEq, Repr

/-- The reaction menus database: a mapping from message id to menu,
represented as an association list in insertion order. -/
abbrev MenuDB := List (Nat × Menu)

/-- Modelled from the spec: `menu.delete()` removes the menu from the
reaction menus database (the entity's destruction routine "removes the
entity from the Task Collection [and] from whatever persistent store holds
it"). -/
def deleteMenuFromDB (db : MenuDB) (i : Nat) : MenuDB :=
  db.filter (fun p => p.1 ≠ i)

/-- The drain loop of `BasedClient.shutdown` (lines 116-120): iterate over
a snapshot `menus = list(botState.reactionMenusDB.values())` and await
`menu.delete()` for every menu with `saveable == false`.  There is no
exception handler around the loop, so a raising `delete()` propagates:
the result is `.error` carrying the events emitted up to and including the
raising call, and the remaining menus are not visited. -/
def drain : List (Nat × Menu) → MenuDB → Except (List Event) (MenuDB × List Event)
  | [], db => .ok (db, [])
  | p :: rest, db =>
    if p.2.saveable then drain rest db
    else if p.2.deleteFails then .error [Event.deleteRaised p.1]
    else
      match drain rest (deleteMenuFromDB db p.1) with
      | .ok (db2, evs) => .ok (db2, Event.deleteMenu p.1 :: evs)
      | .error evs => .error (Event.deleteMenu p.1 :: evs)

/-- `BasedClient.shutdown` (lines 108-125): drain the non-saveable menus,
then `self.loggedIn = False`, `await self.logout()`, `self.saveAllDBs()`
(which flushes the users, guilds and reaction-menus stores; the event
records the ids of the menus present in the flushed reaction-menus store),
the completion message, and `await botState.httpClient.close()`.  An
exception raised by a `delete()` in the drain propagates out of the
coroutine, so none of the later steps happen in that case. -/
def shutdown (storeMenus : Bool) (db : MenuDB) : Except (List Event) (MenuDB × List Event) :=
  match (if storeMenus then drain db db else .ok (db, [])) with
  | .error evs => .error evs
  | .ok (db2, devs) =>
      .ok (db2, devs ++ [Event.setLoggedInFalse, Event.logout,
        Event.saveAllDBs (db2.map Prod.fst), Event.shutdownComplete, Event.httpClientClose])

/-- Modelled from the spec: `cfg.timedTaskCheckingType` (the `cfg` module
is not under `src/`).  The spec fixes the fixed-interval sleep-then-poll
strategy ("On each tick (fixed interval, configurable ...)"). -/
def cfg_timedTaskCheckingType : String := "fixed"

/-- The mutable state of the driver loop of `on_ready`:
`loggedIn` is `botState.client.loggedIn` (the `while` condition),
`killNow` is `botState.client.killer.kill_now`, `time` a clock counting
seconds, and `db` the reaction menus database. -/
structure LoopState where
  loggedIn : Bool
  killNow : Bool
  time : Nat
  db : MenuDB
deriving DecidableEq

/-- `GracefulKiller.exit_gracefully` (lines 64-65): the external signal
handler; its only effect is to set `kill_now` to `True`. -/
def exit_gracefully (s : LoopState) : LoopState :=
  { s with killNow := true }

/-- One iteration of the `while botState.client.loggedIn` loop of
`on_ready` (lines 303-315).  `sig` tells whether the external signal
handler fired before this iteration's flag check (the signal arrives
asynchronously; the driver itself never writes the flag).  `dur` is the
wall-clock time consumed by the three poll calls.  The body: sleep for the
configured interval when `cfg.timedTaskCheckingType == "fixed"`, then the
three poll calls in source order, then the read of `killer.kill_now`; if
the flag is set, run `BasedClient.shutdown`.  The result is the next loop
state (`none` when an exception escaped the iteration and killed the
coroutine) together with the events of the iteration. -/
def tick (ct : String) (iv : Nat) (sig : Bool) (dur : Nat) (s : LoopState) :
    Option LoopState × List Event :=
  let s0 := if sig then exit_gracefully s else s
  let sleepEvs : List Event := if ct = "fixed" then [Event.sleep iv] else []
  let s1 := if ct = "fixed" then { s0 with time := s0.time + iv } else s0
  let pollEvs : List Event :=
    [Event.pollStart s1.time, Event.dbSaveExpiryCheck, Event.menusTaskChecking,
     Event.updatesExpiryCheck]
  let s2 := { s1 with time := s1.time + dur }
  if s2.killNow then
    match shutdown true s2.db with
    | .ok (db2, sevs) =>
        (some { s2 with loggedIn := false, db := db2 },
         sleepEvs ++ pollEvs ++ Event.killCheck true :: sevs)
    | .error sevs =>
        (none, sleepEvs ++ pollEvs ++ Event.killCheck true :: sevs)
  else
    (some s2, sleepEvs ++ pollEvs ++ [Event.killCheck false])

/-- The driver loop itself, fuel-bounded: while `loggedIn`, run `tick`;
`sigs k` and `durs k` give the signal arrival and the poll duration of the
k-th iteration.  A crashed iteration (`none` next state) ends the loop, as
an uncaught exception ends the `on_ready` coroutine. -/
def runLoop (ct : String) (iv : Nat) (sigs : Nat → Bool) (durs : Nat → Nat) :
    Nat → Nat → LoopState → List Event
  | 0, _, _ => []
  | fuel + 1, k, s =>
    if s.loggedIn then
      match tick ct iv (sigs k) (durs k) s with
      | (some s2, evs) => evs ++ runLoop ct iv sigs durs fuel (k + 1) s2
      | (none, evs) => evs
    else []

/-- Modelled from the spec: a task scheduled in the Task Collection
(`scheduling.TimedTaskHeap` is not under `src/`).  `tid` is the task's
stable id, `expiryAt` its absolute deadline, and `removals` the ids its
callback unschedules from the collection when it fires (this is the only
callback effect the resilience claim is about). -/
structure STask where
  tid : Nat
  expiryAt : Nat
  removals : List Nat
deriving DecidableEq, Repr

/-- Modelled from the spec: the stable snapshot of "currently due" ids
taken before any callback of the batch is invoked. -/
def dueIds (now : Nat) (coll : List STask) : List Nat :=
  (coll.filter (fun t => t.expiryAt ≤ now)).map (fun t => t.tid)

/-- Modelled from the spec: `unschedule(id)` removes the task if present
and is a no-op otherwise (idempotent self-removal). -/
def unschedule (coll : List STask) (i : Nat) : List STask :=
  coll.filter (fun t => t.tid ≠ i)

/-- Modelled from the spec: run the callbacks of a snapshot of due ids in
order.  An id whose task has been unscheduled since the snapshot was taken
is skipped (never revisited); a task still present fires exactly once, and
its callback's unschedule calls are applied to the live collection before
the rest of the batch runs.  Returns the final collection and the list of
ids fired, in firing order. -/
def runDue : List Nat → List STask → List STask × List Nat
  | [], coll => (coll, [])
  | i :: rest, coll =>
    match coll.find? (fun t => t.tid == i) with
    | none => runDue rest coll
    | some t =>
      let res := runDue rest (t.removals.foldl unschedule coll)
      (res.1, i :: res.2)

/-- Modelled from the spec: `pollDue(now)` — snapshot the due ids, then
run their callbacks against the live collection. -/
def pollDue (now : Nat) (coll : List STask) : List STask × List Nat :=
  runDue (dueIds now coll) coll

/-- Modelled from the spec: the dictionary obtained by
`lib.jsonHandler.readJSON` from a present save file (the serialized form
is opaque to `bot.py`). -/
abbrev JsonDict := Nat

/-- Modelled from the spec: the users database (the `databases.userDB`
module is not under `src/`); `UserDB()` synthesizes the empty collection. -/
structure UserDB where
  users : List Nat
deriving DecidableEq

/-- Modelled from the spec: the guilds database (the `databases.guildDB`
module is not under `src/`); `GuildDB()` synthesizes the empty collection. -/
structure GuildDB where
  guilds : List Nat
deriving DecidableEq

/-- `loadUsersDB` (lines 145-153): if `os.path.isfile(filePath)`, decode
the file with `userDB.UserDB.fromDict(lib.jsonHandler.readJSON(filePath))`;
otherwise return a fresh `UserDB()`.  The file system is modelled as a
partial map from paths to their decoded JSON dictionaries (`isfile` is
definedness), and `fromDict` is the abstract decoder of the `userDB`
module. -/
def loadUsersDB (fromDict : JsonDict → UserDB) (fs : String → Option JsonDict)
    (filePath : String) : UserDB :=
  match fs filePath with
  | some d => fromDict d
  | none => { users := [] }

/-- `loadGuildsDB` (lines 156-164), same shape as `loadUsersDB`; the
`dbReload` flag is accepted and ignored, as in the source. -/
def loadGuildsDB (fromDict : JsonDict → GuildDB) (fs : String → Option JsonDict)
    (filePath : String) (dbReload : Bool) : GuildDB :=
  match fs filePath with
  | some d => fromDict d
  | none => { guilds := [] }

/-- `loadReactionMenusDB` (lines 167-176): if the file exists, decode it
with `reactionMenuDB.fromDict`; otherwise a fresh `ReactionMenuDB()`
(empty). -/
def loadReactionMenusDB (fromDict : JsonDict → MenuDB) (fs : String → Option JsonDict)
    (filePath : String) : MenuDB :=
  match fs filePath with
  | some d => fromDict d
  | none => []

/-- The fields of `discord.RawReactionActionEvent` read by the reaction
handlers. -/
structure RawReactionPayload where
  user_id : Nat
  message_id : Nat
deriving DecidableEq, Repr

/-- Modelled from the spec: a reaction menu's routing surface (the
`reactionMenus` module is not under `src/`): the test "is this interaction
key registered on me". -/
structure ReactionMenu where
  hasEmojiRegistered : Nat → Bool

/-- `payload.message_id in botState.reactionMenusDB` followed by indexing,
on the association-list representation. -/
def menuLookup (db : List (Nat × ReactionMenu)) (i : Nat) : Option ReactionMenu :=
  (db.find? (fun p => p.1 == i)).map Prod.snd

/-- A domain-handler invocation performed by the reaction routing. -/
inductive HandlerCall where
  | reactionAdded (menuId emoji userId : Nat)
  | reactionRemoved (menuId emoji userId : Nat)
deriving DecidableEq, Repr

/-- `on_raw_reaction_add` (lines 426-441): ignore the bot's own reactions;
resolve the raw payload with `lib.discordUtil.reactionFromRaw` (abstract:
`none` when the resolved user or emoji is `None`); then invoke
`reactionAdded(emoji, user)` on the menu iff the message id is registered
in `reactionMenusDB` and the menu's `hasEmojiRegistered(emoji)` holds.
Returns the list of handler invocations performed (empty or a
singleton). -/
def on_raw_reaction_add (selfId : Nat)
    (resolve : RawReactionPayload → Option (Nat × Nat))
    (db : List (Nat × ReactionMenu)) (p : RawReactionPayload) : List HandlerCall :=
  if p.user_id ≠ selfId then
    match resolve p with
    | none => []
    | some (user, emoji) =>
      match menuLookup db p.message_id with
      | some menu =>
        if menu.hasEmojiRegistered emoji then
          [HandlerCall.reactionAdded p.message_id emoji user]
        else []
      | none => []
  else []

/-- `on_raw_reaction_remove` (lines 443-457): identical routing, invoking
`reactionRemoved(emoji, user)`. -/
def on_raw_reaction_remove (selfId : Nat)
    (resolve : RawReactionPayload → Option (Nat × Nat))
    (db : List (Nat × ReactionMenu)) (p : RawReactionPayload) : List HandlerCall :=
  if p.user_id ≠ selfId then
    match resolve p with
    | none => []
    | some (user, emoji) =>
      match menuLookup db p.message_id with
      | some menu =>
        if menu.hasEmojiRegistered emoji then
          [HandlerCall.reactionRemoved p.message_id emoji user]
        else []
      | none => []
  else []

/-- The errors `run()` can raise before starting the client. -/
inductive RunError where
  | valueError
  | keyError
deriving DecidableEq, Repr

/-- Python truthiness of the configuration strings: `bool(s)` is false
exactly for the empty string (and for an unset value, modelled as ""). -/
def pyTruthy (s : String) : Bool := s ≠ ""

/-- `run()` (lines 483-492): raise `ValueError` unless exactly one of
`cfg.botToken` and `cfg.botToken_envVarName` is truthy; raise `KeyError`
when the environment-variable name is set but absent from `os.environ`;
otherwise start the client with the token (`cfg.botToken` if truthy, else
the environment variable's value).  `.ok` carries the token the client is
started with. -/
def run (botToken botToken_envVarName : String) (environ : String → Option String) :
    Except RunError String :=
  if !(Bool.xor (pyTruthy botToken) (pyTruthy botToken_envVarName)) then
    .error .valueError
  else if pyTruthy botToken_envVarName && (environ botToken_envVarName).isNone then
    .error .keyError
  else
    .ok (if pyTruthy botToken then botToken else (environ botToken_envVarName).getD "")

/-- Predicate: the event is one of the three poll calls of a tick. -/
def isPollEvent : Event → Bool
  | .dbSaveExpiryCheck => true
  | .menusTaskChecking => true
  | .updatesExpiryCheck => true
  | _ => false

/-- The poll events of the trace form whole repetitions of the triple
`dbSaveExpiryCheck`, `menusTaskChecking`, `updatesExpiryCheck`, in that
order. -/
def pollTripleRep : List Event → Bool
  | [] => true
  | .dbSaveExpiryCheck :: .menusTaskChecking :: .updatesExpiryCheck :: rest =>
      pollTripleRep rest
  | _ => false

/-- No poll event occurs in the trace. -/
def noPollEvents (evs : List Event) : Bool := evs.all (fun e => !isPollEvent e)

/-- After the first `shutdownComplete` of the trace, no poll event ever
occurs. -/
def noPollAfterStop : List Event → Bool
  | [] => true
  | .shutdownComplete :: rest => noPollEvents rest
  | _ :: rest => noPollAfterStop rest

/-- Whether the trace contains the shutdown completion message. -/
def hasComplete : List Event → Bool
  | [] => false
  | .shutdownComplete :: _ => true
  | _ :: rest => hasComplete rest

/-- The instants at which the poll sequences of the trace begin. -/
def pollStartTimes : List Event → List Nat
  | [] => []
  | .pollStart t :: rest => t :: pollStartTimes rest
  | _ :: rest => pollStartTimes rest

/-- Consecutive entries of the list are at least `iv` apart. -/
def gapsAtLeast (iv : Nat) : List Nat → Bool
  | a :: b :: rest => decide (a + iv ≤ b) && gapsAtLeast iv (b :: rest)
  | _ => true

/-- The database left after the drain pass: each non-saveable snapshot
entry has been removed by its `delete()`. -/
def removeNonSaveable (s : List (Nat × Menu)) (db : MenuDB) : MenuDB :=
  s.foldl (fun d p => if p.2.saveable then d else deleteMenuFromDB d p.1) db

/-- The delete events the drain pass emits for a snapshot: one
`deleteMenu` per non-saveable entry, in snapshot order. -/
def deleteEvents (s : List (Nat × Menu)) : List Event :=
  (s.filter (fun p => !p.2.saveable)).map (fun p => Event.deleteMenu p.1)

/-- Predicate: the event is a menu destruction attempt of the drain. -/
def isDeleteEvent : Event → Bool
  | .deleteMenu _ => true
  | .deleteRaised _ => true
  | _ => false

/-- Whether the trace contains a persistence flush (`saveAllDBs`). -/
def containsSaveAll : List Event → Bool
  | [] => false
  | .saveAllDBs _ :: _ => true
  | _ :: rest => containsSaveAll rest

/-! ## Theorems -/

/-- C10: the top-level `run()` entry point raises `ValueError` before
starting the client unless exactly one of the static token and the
token-environment-variable name is set (both set or neither set is
rejected), raises `KeyError` when the environment-variable name is set but
that variable is absent from the environment, and the client is started
only when these preconditions hold. -/
theorem run_token_preconditions (botToken botToken_envVarName : String)
    (environ : String → Option String) :
    (run botToken botToken_envVarName environ = .error .valueError ↔
      pyTruthy botToken = pyTruthy botToken_envVarName) ∧
    (pyTruthy botToken = false → pyTruthy botToken_envVarName = true →
      environ botToken_envVarName = none →
      run botToken botToken_envVarName environ = .error .keyError) ∧
    (∀ t, run botToken botToken_envVarName environ = .ok t →
      pyTruthy botToken ≠ pyTruthy botToken_envVarName ∧
      (pyTruthy botToken_envVarName = true →
        (environ botToken_envVarName).isSome = true)) := by
  cases hb : pyTruthy botToken <;> cases he : pyTruthy botToken_envVarName <;>
    cases henv : environ botToken_envVarName <;>
      simp [run, hb, he, henv, Bool.xor]

/-- C10 witness: with no static token, an environment-variable name set,
and that variable absent from the environment, `run` raises `KeyError`. -/
theorem run_token_preconditions_witness :
    run "" "BOT_TOKEN_VAR" (fun _ => none) = .error .keyError :=
  (run_token_preconditions "" "BOT_TOKEN_VAR" (fun _ => none)).2.1
    (by decide) (by decide) rfl

/-- C7: for every persisted collection (users, guilds, reaction menus),
the startup load operation returns the collection decoded from the
serialized file when that file exists, and returns a freshly synthesized
empty collection when the file is absent, without raising an error (the
Lean embedding is total: the absent branch builds the empty collection
directly and never consults the decoder). -/
theorem load_dbs_decode_or_default
    (fromDictU : JsonDict → UserDB) (fromDictG : JsonDict → GuildDB)
    (fromDictM : JsonDict → MenuDB) (fs : String → Option JsonDict)
    (filePath : String) (dbReload : Bool) :
    (∀ d, fs filePath = some d →
      loadUsersDB fromDictU fs filePath = fromDictU d ∧
      loadGuildsDB fromDictG fs filePath dbReload = fromDictG d ∧
      loadReactionMenusDB fromDictM fs filePath = fromDictM d) ∧
    (fs filePath = none →
      loadUsersDB fromDictU fs filePath = { users := [] } ∧
      loadGuildsDB fromDictG fs filePath dbReload = { guilds := [] } ∧
      loadReactionMenusDB fromDictM fs filePath = []) := by
  constructor
  · intro d hd
    refine ⟨?_, ?_, ?_⟩ <;> simp [loadUsersDB, loadGuildsDB, loadReactionMenusDB, hd]
  · intro hn
    refine ⟨?_, ?_, ?_⟩ <;> simp [loadUsersDB, loadGuildsDB, loadReactionMenusDB, hn]

/-- C7 witness: on an absent file every load returns the empty collection,
and on a present file every load returns what the decoder produces. -/
theorem load_dbs_decode_or_default_witness :
    (loadUsersDB (fun d => { users := [d] }) (fun _ => none) "users.json"
        = { users := [] } ∧
      loadGuildsDB (fun d => { guilds := [d] }) (fun _ => none) "guilds.json" false
        = { guilds := [] } ∧
      loadReactionMenusDB (fun _ => [(7, { saveable := true, deleteFails := false })])
        (fun _ => none) "menus.json" = []) ∧
    loadUsersDB (fun d => { users := [d] }) (fun _ => some (5 : JsonDict))
      "users.json" = { users := [5] } := by
  constructor
  · exact (load_dbs_decode_or_default (fun d => { users := [d] })
      (fun d => { guilds := [d] }) (fun _ => [(7, ⟨true, false⟩)])
      (fun _ => none) "users.json" false).2 rfl |>.imp id
        (fun h => ⟨(load_dbs_decode_or_default (fun d => { users := [d] })
          (fun d => { guilds := [d] }) (fun _ => [(7, ⟨true, false⟩)])
          (fun _ => none) "guilds.json" false).2 rfl |>.2.1,
          (load_dbs_decode_or_default (fun d => { users := [d] })
          (fun d => { guilds := [d] }) (fun _ => [(7, ⟨true, false⟩)])
          (fun _ => none) "menus.json" false).2 rfl |>.2.2⟩)
  · exact ((load_dbs_decode_or_default (fun d => { users := [d] })
      (fun d => { guilds := [d] }) (fun _ => [(7, ⟨true, false⟩)])
      (fun _ => some 5) "users.json" false).1 5 rfl).1

/-- C8: for every incoming interaction triple `(entityId, key, actor)`
delivered by the external channel (a raw payload the channel resolves to a
user and an emoji), the entity's handler is invoked if and only if the
entity id is registered in the menus collection, the key passes that
entity's `hasEmojiRegistered` test, and the actor is not the bot itself;
triples failing any of these tests leave every entity uninvoked, for both
the add and the remove handlers. -/
theorem reaction_routing (selfId : Nat)
    (resolve : RawReactionPayload → Option (Nat × Nat))
    (db : List (Nat × ReactionMenu)) (p : RawReactionPayload) (user emoji : Nat)
    (hres : resolve p = some (user, emoji)) :
    (∀ menu, p.user_id ≠ selfId → menuLookup db p.message_id = some menu →
      menu.hasEmojiRegistered emoji = true →
      on_raw_reaction_add selfId resolve db p
          = [HandlerCall.reactionAdded p.message_id emoji user] ∧
      on_raw_reaction_remove selfId resolve db p
          = [HandlerCall.reactionRemoved p.message_id emoji user]) ∧
    (¬ (p.user_id ≠ selfId ∧ ∃ menu, menuLookup db p.message_id = some menu ∧
          menu.hasEmojiRegistered emoji = true) →
      on_raw_reaction_add selfId resolve db p = [] ∧
      on_raw_reaction_remove selfId resolve db p = []) := by
  constructor
  · intro menu hself hmenu hkey
    constructor <;>
      simp [on_raw_reaction_add, on_raw_reaction_remove, hres, hself, hmenu, hkey]
  · intro hneg
    by_cases hself : p.user_id = selfId
    · constructor <;> simp [on_raw_reaction_add, on_raw_reaction_remove, hself]
    · cases hmenu : menuLookup db p.message_id with
      | none =>
        constructor <;>
          simp [on_raw_reaction_add, on_raw_reaction_remove, hres, hself, hmenu]
      | some menu =>
        have hkey : menu.hasEmojiRegistered emoji = false := by
          by_contra hk
          exact hneg ⟨hself, menu, hmenu, by
            cases h : menu.hasEmojiRegistered emoji
            · exact absurd h hk
            · rfl⟩
        constructor <;>
          simp [on_raw_reaction_add, on_raw_reaction_remove, hres, hself, hmenu, hkey]

/-- C8 witness: a registered menu with the key registered and a foreign
actor gets its handler invoked; the same payload sent by the bot itself
invokes nothing. -/
theorem reaction_routing_witness :
    on_raw_reaction_add 99 (fun _ => some (1, 2))
        [(10, { hasEmojiRegistered := fun e => e == 2 })]
        { user_id := 1, message_id := 10 }
      = [HandlerCall.reactionAdded 10 2 1] ∧
    on_raw_reaction_add 1 (fun _ => some (1, 2))
        [(10, { hasEmojiRegistered := fun e => e == 2 })]
        { user_id := 1, message_id := 10 }
      = [] := by
  constructor
  · exact ((reaction_routing 99 (fun _ => some (1, 2))
      [(10, { hasEmojiRegistered := fun e => e == 2 })]
      { user_id := 1, message_id := 10 } 1 2 rfl).1
        { hasEmojiRegistered := fun e => e == 2 } (by decide) rfl rfl).1
  · exact ((reaction_routing 1 (fun _ => some (1, 2))
      [(10, { hasEmojiRegistered := fun e => e == 2 })]
      { user_id := 1, message_id := 10 } 1 2 rfl).2
        (fun h => h.1 rfl)).1

/-- When no non-saveable snapshot entry's `delete()` raises, the drain
succeeds, removes exactly the non-saveable entries' ids from the database,
and emits their delete events in snapshot order. -/
theorem drain_ok (s : List (Nat × Menu)) :
    ∀ db : MenuDB, (∀ p ∈ s, p.2.saveable = false → p.2.deleteFails = false) →
      drain s db = .ok (removeNonSaveable s db, deleteEvents s) := by
  induction s with
  | nil => intro db _; rfl
  | cons p rest ih =>
    intro db h
    have hrest : ∀ q ∈ rest, q.2.saveable = false → q.2.deleteFails = false :=
      fun q hq => h q (List.mem_cons_of_mem _ hq)
    by_cases hs : p.2.saveable
    · simp [drain, hs, ih db hrest, removeNonSaveable, deleteEvents]
    · have hf : p.2.deleteFails = false :=
        h p (List.mem_cons_self _ _) (by simpa using hs)
      simp [drain, hs, hf, ih (deleteMenuFromDB db p.1) hrest,
        removeNonSaveable, deleteEvents]

/-- The drain's removals compose to a single filter: an entry survives iff
no non-saveable snapshot entry shares its key. -/
theorem removeNonSaveable_eq_filter (s : List (Nat × Menu)) :
    ∀ db : MenuDB, removeNonSaveable s db
      = db.filter (fun q => s.all (fun p => p.2.saveable || q.1 != p.1)) := by
  induction s with
  | nil =>
    intro db
    simp [removeNonSaveable, MenuDB]
  | cons p rest ih =>
    intro db
    by_cases hs : p.2.saveable
    · have : removeNonSaveable (p :: rest) db = removeNonSaveable rest db := by
        simp [removeNonSaveable, hs]
      rw [this, ih db]
      apply List.filter_congr
      intro q _
      simp [hs]
    · have : removeNonSaveable (p :: rest) db
          = removeNonSaveable rest (deleteMenuFromDB db p.1) := by
        simp [removeNonSaveable, hs]
      rw [this, ih (deleteMenuFromDB db p.1), deleteMenuFromDB, List.filter_filter]
      apply List.filter_congr
      intro q _
      cases hq : decide (q.1 = p.1) with
      | true => simp [hs, List.all_cons, decide_eq_true_eq.mp hq]
      | false =>
        have : q.1 ≠ p.1 := of_decide_eq_false hq
        simp [hs, List.all_cons, this]

/-- Draining the whole database over itself, with distinct keys, keeps
exactly the saveable entries. -/
theorem removeNonSaveable_self (db : MenuDB) (hkeys : (db.map Prod.fst).Nodup) :
    removeNonSaveable db db = db.filter (fun p => p.2.saveable) := by
  rw [removeNonSaveable_eq_filter db db]
  apply List.filter_congr
  intro q hq
  cases hsq : q.2.saveable with
  | true =>
    rw [List.all_eq_true]
    intro p hp
    by_cases hqp : q.1 = p.1
    · have heq : q = p := List.inj_on_of_nodup_map hkeys hq hp hqp
      rw [← heq, hsq]
      simp
    · simp [hqp]
  | false =>
    rw [List.all_eq_false]
    exact ⟨q, hq, by simp [hsq]⟩

/-- Once `loggedIn` is false the driver loop performs nothing: the `while`
condition fails immediately. -/
theorem runLoop_stopped (ct : String) (iv : Nat) (sigs : Nat → Bool)
    (durs : Nat → Nat) (fuel k : Nat) (s : LoopState) (h : s.loggedIn = false) :
    runLoop ct iv sigs durs fuel k s = [] := by
  cases fuel with
  | zero => rfl
  | succ n => simp [runLoop, h]

/-- C2: when the shutdown flag is observed set, `BasedClient.shutdown`
performs, in order: the `delete()` of every non-saveable entry of the
menus collection (exactly those), then (after the discord logout) the
flush of all persistent stores, then the release of the HTTP client
handle; every saveable entity is present in the flushed store, and a
driver whose `loggedIn` has been cleared performs no further work.  In
particular, for a collection of two entities, one saveable and one not,
exactly the non-saveable one's `delete()` is invoked before the flush and
the saveable one's id appears in the flushed store. -/
theorem shutdown_sequence_order (db : MenuDB)
    (hkeys : (db.map Prod.fst).Nodup)
    (hok : ∀ p ∈ db, p.2.saveable = false → p.2.deleteFails = false) :
    shutdown true db = .ok (db.filter (fun p => p.2.saveable),
      deleteEvents db ++ [Event.setLoggedInFalse, Event.logout,
        Event.saveAllDBs ((db.filter (fun p => p.2.saveable)).map Prod.fst),
        Event.shutdownComplete, Event.httpClientClose]) ∧
    (∀ p ∈ db, p.2.saveable = true →
      p.1 ∈ (db.filter (fun p => p.2.saveable)).map Prod.fst) ∧
    (∀ iv sigs durs fuel k s, s.loggedIn = false →
      runLoop cfg_timedTaskCheckingType iv sigs durs fuel k s = []) := by
  refine ⟨?_, ?_, ?_⟩
  · simp [shutdown, drain_ok db db hok, removeNonSaveable_self db hkeys]
  · intro p hp hs
    exact List.mem_map_of_mem Prod.fst (List.mem_filter.mpr ⟨hp, by simp [hs]⟩)
  · intro iv sigs durs fuel k s h
    exact runLoop_stopped _ iv sigs durs fuel k s h

/-- C2 witness: the two-entity scenario.  Entity 1 is saveable, entity 2
is not: the trace deletes exactly entity 2, then flushes a store
containing entity 1, then closes the HTTP handle. -/
theorem shutdown_sequence_order_witness :
    shutdown true [(1, { saveable := true, deleteFails := false }),
                   (2, { saveable := false, deleteFails := false })]
      = .ok ([(1, { saveable := true, deleteFails := false })],
        [Event.deleteMenu 2, Event.setLoggedInFalse, Event.logout,
         Event.saveAllDBs [1], Event.shutdownComplete, Event.httpClientClose]) ∧
    (1 : Nat) ∈ [1] := by
  have h := shutdown_sequence_order
    [(1, { saveable := true, deleteFails := false }),
     (2, { saveable := false, deleteFails := false })]
    (by decide) (by decide)
  exact ⟨h.1, h.2.1 (1, { saveable := true, deleteFails := false })
    (by decide) rfl⟩

/-- C4 counterexample: with two non-saveable entities whose `delete()` is
attempted in order and the first one raising, `BasedClient.shutdown`
propagates the exception: its trace stops at the raise, so the second
entity's `delete()` is never invoked and no persistence flush happens —
the drain loop of lines 116-120 has no exception handler. -/
theorem shutdown_drain_failure_counterexample :
    shutdown true [(1, { saveable := false, deleteFails := true }),
                   (2, { saveable := false, deleteFails := false })]
      = .error [Event.deleteRaised 1] ∧
    Event.deleteMenu 2 ∉ ([Event.deleteRaised 1] : List Event) ∧
    containsSaveAll [Event.deleteRaised 1] = false := by
  refine ⟨rfl, ?_, rfl⟩
  decide

/-- Hitting a non-saveable entry whose `delete()` raises makes the drain
fail with exactly the earlier deletes followed by the raise. -/
theorem drain_error_at (i : Nat) (m : Menu) (hm : m.saveable = false)
    (hf : m.deleteFails = true) (post : List (Nat × Menu)) :
    ∀ (pre : List (Nat × Menu)) (db : MenuDB),
      (∀ p ∈ pre, p.2.saveable = false → p.2.deleteFails = false) →
      drain (pre ++ (i, m) :: post) db
        = .error (deleteEvents pre ++ [Event.deleteRaised i]) := by
  intro pre
  induction pre with
  | nil =>
    intro db _
    simp [drain, hm, hf, deleteEvents]
  | cons p rest ih =>
    intro db h
    have hrest : ∀ q ∈ rest, q.2.saveable = false → q.2.deleteFails = false :=
      fun q hq => h q (List.mem_cons_of_mem _ hq)
    by_cases hs : p.2.saveable
    · simp [drain, hs, ih db hrest, deleteEvents]
    · have hpf : p.2.deleteFails = false :=
        h p (List.mem_cons_self _ _) (by simpa using hs)
      simp [drain, hs, hpf, ih (deleteMenuFromDB db p.1) hrest, deleteEvents]

/-- Delete events are only `deleteMenu` constructors, so they never
contain a flush. -/
theorem containsSaveAll_deleteEvents (s : List (Nat × Menu)) :
    ∀ tail : List Event, containsSaveAll (deleteEvents s ++ tail)
      = containsSaveAll tail := by
  induction s with
  | nil => intro tail; simp [deleteEvents]
  | cons p rest ih =>
    intro tail
    by_cases hs : p.2.saveable
    · simpa [deleteEvents, hs] using ih tail
    · simpa [deleteEvents, hs, containsSaveAll] using ih tail

/-- C4 amended: a failure raised while destroying one entity is NOT
caught by the shutdown sequence: it propagates, so the destruction of the
entities after it in the snapshot and the final persistence flush are not
performed (the emitted trace is exactly the earlier deletes followed by
the raise, and contains no flush). -/
theorem shutdown_drain_failure_propagates (pre post : List (Nat × Menu))
    (i : Nat) (m : Menu) (hm : m.saveable = false) (hf : m.deleteFails = true)
    (hpre : ∀ p ∈ pre, p.2.saveable = false → p.2.deleteFails = false) :
    shutdown true (pre ++ (i, m) :: post)
      = .error (deleteEvents pre ++ [Event.deleteRaised i]) ∧
    containsSaveAll (deleteEvents pre ++ [Event.deleteRaised i]) = false := by
  constructor
  · simp [shutdown, drain_error_at i m hm hf post pre (pre ++ (i, m) :: post) hpre]
  · rw [containsSaveAll_deleteEvents]
    rfl

/-- C4 amended witness: one earlier non-saveable entity is deleted, then
the raising entity aborts the sequence with no flush performed. -/
theorem shutdown_drain_failure_propagates_witness :
    shutdown true [(0, { saveable := false, deleteFails := false }),
                   (1, { saveable := false, deleteFails := true })]
      = .error [Event.deleteMenu 0, Event.deleteRaised 1] ∧
    containsSaveAll [Event.deleteMenu 0, Event.deleteRaised 1] = false := by
  have h := shutdown_drain_failure_propagates
    [(0, { saveable := false, deleteFails := false })] []
    1 { saveable := false, deleteFails := true } rfl rfl (by decide)
  exact h

/-- Drain traces consist only of delete events, on both outcomes. -/
theorem drain_events_all_delete (s : List (Nat × Menu)) :
    ∀ db : MenuDB,
      (∀ db2 evs, drain s db = .ok (db2, evs) → evs.all isDeleteEvent = true) ∧
      (∀ evs, drain s db = .error evs → evs.all isDeleteEvent = true) := by
  induction s with
  | nil =>
    intro db
    constructor
    · intro db2 evs h
      simp only [drain, Except.ok.injEq, Prod.mk.injEq] at h
      rw [← h.2]
      rfl
    · intro evs h
      exact Except.noConfusion h
  | cons p rest ih =>
    intro db
    by_cases hs : p.2.saveable
    · constructor
      · intro db2 evs h
        rw [drain, if_pos hs] at h
        exact (ih db).1 db2 evs h
      · intro evs h
        rw [drain, if_pos hs] at h
        exact (ih db).2 evs h
    · by_cases hf : p.2.deleteFails
      · constructor
        · intro db2 evs h
          rw [drain, if_neg hs, if_pos hf] at h
          cases h
        · intro evs h
          rw [drain, if_neg hs, if_pos hf] at h
          cases h
          rfl
      · constructor
        · intro db2 evs h
          rw [drain, if_neg hs, if_neg hf] at h
          cases hdr : drain rest (deleteMenuFromDB db p.1) with
          | ok pr =>
            rw [hdr] at h
            cases h
            have := (ih (deleteMenuFromDB db p.1)).1 pr.1 pr.2
            simp only [List.all_cons, isDeleteEvent, Bool.true_and]
            exact this (by rw [hdr])
          | error evs2 =>
            rw [hdr] at h
            cases h
        · intro evs h
          rw [drain, if_neg hs, if_neg hf] at h
          cases hdr : drain rest (deleteMenuFromDB db p.1) with
          | ok pr =>
            rw [hdr] at h
            cases h
          | error evs2 =>
            rw [hdr] at h
            cases h
            have := (ih (deleteMenuFromDB db p.1)).2 evs2 hdr
            simp only [List.all_cons, isDeleteEvent, Bool.true_and]
            exact this

/-- A successful shutdown trace is delete events followed by the fixed
tail ending in the flush, the completion message and the handle close. -/
theorem shutdown_ok_events (db db2 : MenuDB) (evs : List Event)
    (h : shutdown true db = .ok (db2, evs)) :
    ∃ devs, evs = devs ++ [Event.setLoggedInFalse, Event.logout,
        Event.saveAllDBs (db2.map Prod.fst), Event.shutdownComplete,
        Event.httpClientClose] ∧ devs.all isDeleteEvent = true := by
  rw [shutdown] at h
  simp only [if_pos rfl] at h
  cases hdr : drain db db with
  | ok pr =>
    rw [hdr] at h
    cases h
    exact ⟨pr.2, rfl, (drain_events_all_delete db db).1 pr.1 pr.2 (by rw [hdr])⟩
  | error evs2 =>
    rw [hdr] at h
    cases h

/-- A failed shutdown trace is delete events only: nothing after the
raising `delete()` happens. -/
theorem shutdown_error_events (db : MenuDB) (evs : List Event)
    (h : shutdown true db = .error evs) :
    evs.all isDeleteEvent = true := by
  rw [shutdown] at h
  simp only [if_pos rfl] at h
  cases hdr : drain db db with
  | ok pr =>
    rw [hdr] at h
    cases h
  | error evs2 =>
    rw [hdr] at h
    cases h
    exact (drain_events_all_delete db db).2 _ hdr

/-- Delete events are not poll events. -/
theorem all_delete_no_poll (evs : List Event)
    (h : evs.all isDeleteEvent = true) : noPollEvents evs = true := by
  rw [List.all_eq_true] at h
  rw [noPollEvents, List.all_eq_true]
  intro e he
  have hd := h e he
  cases e <;> simp_all [isDeleteEvent, isPollEvent]

/-- Delete events are never the completion message. -/
theorem all_delete_no_complete (evs : List Event)
    (h : evs.all isDeleteEvent = true) : Event.shutdownComplete ∉ evs := by
  intro hmem
  rw [List.all_eq_true] at h
  have := h Event.shutdownComplete hmem
  simp [isDeleteEvent] at this

/-- Full characterization of one driver-loop iteration: the trace is the
optional sleep, the poll-start marker, the three poll calls in source
order, the flag check carrying `killNow || sig`, then (only if the flag
was set) the shutdown events; the next state advances the clock and, when
a successful shutdown ran, clears `loggedIn`. -/
theorem tick_spec (ct : String) (iv : Nat) (sig : Bool) (dur : Nat) (s : LoopState) :
    ∃ rest : List Event,
      (tick ct iv sig dur s).2
        = (if ct = "fixed" then [Event.sleep iv] else [])
          ++ Event.pollStart (if ct = "fixed" then s.time + iv else s.time)
            :: Event.dbSaveExpiryCheck :: Event.menusTaskChecking
            :: Event.updatesExpiryCheck
            :: Event.killCheck (s.killNow || sig) :: rest ∧
      ((s.killNow || sig) = false → rest = [] ∧
        (tick ct iv sig dur s).1
          = some { s with
              time := (if ct = "fixed" then s.time + iv else s.time) + dur }) ∧
      ((s.killNow || sig) = true →
        (∃ db2, shutdown true s.db = .ok (db2, rest) ∧
          (tick ct iv sig dur s).1
            = some { loggedIn := false,
                     killNow := true,
                     time := (if ct = "fixed" then s.time + iv else s.time) + dur,
                     db := db2 }) ∨
        (shutdown true s.db = .error rest ∧ (tick ct iv sig dur s).1 = none)) := by
  obtain ⟨li, kn, tm, mdb⟩ := s
  cases sig with
  | false =>
    cases kn with
    | false =>
      refine ⟨[], ?_, ?_, ?_⟩
      · by_cases hct : ct = "fixed" <;> simp [tick, exit_gracefully, hct]
      · intro _
        refine ⟨rfl, ?_⟩
        by_cases hct : ct = "fixed" <;> simp [tick, exit_gracefully, hct]
      · intro h
        exact absurd h (by simp)
    | true =>
      cases hsd : shutdown true mdb with
      | ok pr =>
        obtain ⟨db2, sevs⟩ := pr
        refine ⟨sevs, ?_, ?_, ?_⟩
        · by_cases hct : ct = "fixed" <;> simp [tick, exit_gracefully, hct, hsd]
        · intro h
          exact absurd h (by simp)
        · intro _
          refine Or.inl ⟨db2, rfl, ?_⟩
          by_cases hct : ct = "fixed" <;> simp [tick, exit_gracefully, hct, hsd]
      | error sevs =>
        refine ⟨sevs, ?_, ?_, ?_⟩
        · by_cases hct : ct = "fixed" <;> simp [tick, exit_gracefully, hct, hsd]
        · intro h
          exact absurd h (by simp)
        · intro _
          refine Or.inr ⟨rfl, ?_⟩
          by_cases hct : ct = "fixed" <;> simp [tick, exit_gracefully, hct, hsd]
  | true =>
    cases hsd : shutdown true mdb with
    | ok pr =>
      obtain ⟨db2, sevs⟩ := pr
      refine ⟨sevs, ?_, ?_, ?_⟩
      · by_cases hct : ct = "fixed" <;> simp [tick, exit_gracefully, hct, hsd]
      · intro h
        exact absurd h (by simp)
      · intro _
        refine Or.inl ⟨db2, rfl, ?_⟩
        by_cases hct : ct = "fixed" <;> simp [tick, exit_gracefully, hct, hsd]
    | error sevs =>
      refine ⟨sevs, ?_, ?_, ?_⟩
      · by_cases hct : ct = "fixed" <;> simp [tick, exit_gracefully, hct, hsd]
      · intro h
        exact absurd h (by simp)
      · intro _
        refine Or.inr ⟨rfl, ?_⟩
        by_cases hct : ct = "fixed" <;> simp [tick, exit_gracefully, hct, hsd]

/-- A trace without poll events filters to the empty poll list. -/
theorem filter_poll_nil (evs : List Event) (h : noPollEvents evs = true) :
    evs.filter isPollEvent = [] := by
  rw [List.filter_eq_nil_iff]
  rw [noPollEvents, List.all_eq_true] at h
  intro a ha
  simpa using h a ha

/-- A successful shutdown emits no poll events. -/
theorem shutdown_ok_no_poll (db db2 : MenuDB) (evs : List Event)
    (h : shutdown true db = .ok (db2, evs)) : noPollEvents evs = true := by
  obtain ⟨devs, heq, hall⟩ := shutdown_ok_events db db2 evs h
  subst heq
  rw [noPollEvents, List.all_append, Bool.and_eq_true]
  exact ⟨all_delete_no_poll devs hall, by rfl⟩

/-- A failing shutdown emits no poll events either. -/
theorem shutdown_error_no_poll (db : MenuDB) (evs : List Event)
    (h : shutdown true db = .error evs) : noPollEvents evs = true :=
  all_delete_no_poll evs (shutdown_error_events db evs h)

/-- Every iteration's trace filters to exactly the ordered poll triple. -/
theorem tick_filter_poll (ct : String) (iv : Nat) (sig : Bool) (dur : Nat)
    (s : LoopState) :
    (tick ct iv sig dur s).2.filter isPollEvent
      = [Event.dbSaveExpiryCheck, Event.menusTaskChecking,
         Event.updatesExpiryCheck] := by
  obtain ⟨rest, hev, hno, hyes⟩ := tick_spec ct iv sig dur s
  have hrest : rest.filter isPollEvent = [] := by
    cases hb : (s.killNow || sig) with
    | false =>
      rw [(hno hb).1]
      rfl
    | true =>
      rcases hyes hb with ⟨db2, hsd, -⟩ | ⟨hsd, -⟩
      · exact filter_poll_nil rest (shutdown_ok_no_poll s.db db2 rest hsd)
      · exact filter_poll_nil rest (shutdown_error_no_poll s.db rest hsd)
  rw [hev, List.filter_append]
  have hsleep : (if ct = "fixed" then [Event.sleep iv] else []).filter isPollEvent
      = [] := by
    by_cases hct : ct = "fixed" <;> simp [hct, isPollEvent]
  rw [hsleep]
  simp [List.filter_cons, isPollEvent, hrest]

/-- C1: on every tick of the driver loop, the poll sequence invokes the
components in this exact fixed order — `dbSaveTT.doExpiryCheck`, then
`reactionMenusTTDB.doTaskChecking`, then `updatesCheckTT.doExpiryCheck` —
and each exactly once per tick: the poll events of a single iteration are
exactly that triple, and the poll events of any whole run are whole
repetitions of it. -/
theorem poll_sequence_fixed_order (ct : String) (iv : Nat) (sigs : Nat → Bool)
    (durs : Nat → Nat) :
    (∀ sig dur s, (tick ct iv sig dur s).2.filter isPollEvent
        = [Event.dbSaveExpiryCheck, Event.menusTaskChecking,
           Event.updatesExpiryCheck]) ∧
    (∀ fuel k s,
      pollTripleRep ((runLoop ct iv sigs durs fuel k s).filter isPollEvent)
        = true) := by
  refine ⟨fun sig dur s => tick_filter_poll ct iv sig dur s, ?_⟩
  intro fuel
  induction fuel with
  | zero => intro k s; rfl
  | succ n ih =>
    intro k s
    cases hli : s.loggedIn with
    | false => simp [runLoop, hli, pollTripleRep]
    | true =>
      have htf := tick_filter_poll ct iv (sigs k) (durs k) s
      cases htk : tick ct iv (sigs k) (durs k) s with
      | mk os evs =>
        rw [htk] at htf
        cases os with
        | some s2 =>
          rw [runLoop, if_pos hli, htk, List.filter_append, htf]
          exact ih (k + 1) s2
        | none =>
          rw [runLoop, if_pos hli, htk, htf]
          rfl

/-- C5: the shutdown flag is set only by the external signal handler
(`exit_gracefully`), never by the driver itself — after any iteration the
flag equals the incoming flag OR-ed with the signal arrival — and the
driver inspects it only after the complete poll sequence of a tick: the
flag-check event follows the sleep and the three poll calls, and shutdown
events (`rest`) can only follow the check, so all poll work of the current
tick runs to completion before the shutdown sequence begins. -/
theorem kill_flag_external_only (ct : String) (iv : Nat) (sig : Bool)
    (dur : Nat) (s : LoopState) :
    (∀ s2, (tick ct iv sig dur s).1 = some s2 → s2.killNow = (s.killNow || sig)) ∧
    ((exit_gracefully s).killNow = true ∧ (exit_gracefully s).loggedIn = s.loggedIn
      ∧ (exit_gracefully s).db = s.db) ∧
    (∃ t rest, (tick ct iv sig dur s).2
        = (if ct = "fixed" then [Event.sleep iv] else [])
          ++ Event.pollStart t :: Event.dbSaveExpiryCheck :: Event.menusTaskChecking
            :: Event.updatesExpiryCheck :: Event.killCheck (s.killNow || sig) :: rest ∧
      ((s.killNow || sig) = false → rest = [])) := by
  obtain ⟨rest, hev, hno, hyes⟩ := tick_spec ct iv sig dur s
  refine ⟨?_, ⟨rfl, rfl, rfl⟩, ?_⟩
  · intro s2 hs2
    cases hb : (s.killNow || sig) with
    | false =>
      rw [(hno hb).2] at hs2
      cases hs2
      simp only [Bool.or_eq_false_iff] at hb
      simp [hb.1]
    | true =>
      rcases hyes hb with ⟨db2, -, hstate⟩ | ⟨-, hstate⟩
      · rw [hstate] at hs2
        cases hs2
        simp [hb]
      · rw [hstate] at hs2
        cases hs2
  · exact ⟨_, rest, hev, fun hb => (hno hb).1⟩

/-- C5 witness: one concrete tick with no signal leaves the flag exactly
as it was. -/
theorem kill_flag_external_only_witness :
    ({ loggedIn := true, killNow := false, time := 7, db := [] } : LoopState).killNow
      = (false || false) :=
  (kill_flag_external_only "fixed" 5 false 2
      { loggedIn := true, killNow := false, time := 0, db := [] }).1
    { loggedIn := true, killNow := false, time := 7, db := [] } rfl

/-- `hasComplete` distributes over append. -/
theorem hasComplete_append (l1 l2 : List Event) :
    hasComplete (l1 ++ l2) = (hasComplete l1 || hasComplete l2) := by
  induction l1 with
  | nil => rfl
  | cons e rest ih => cases e <;> simp [hasComplete, ih]

/-- Delete events never contain the completion message. -/
theorem hasComplete_all_delete (evs : List Event)
    (h : evs.all isDeleteEvent = true) : hasComplete evs = false := by
  induction evs with
  | nil => rfl
  | cons e rest ih =>
    rw [List.all_cons, Bool.and_eq_true] at h
    cases e <;> simp_all [isDeleteEvent, hasComplete]

/-- Traversal past a completion-free prefix. -/
theorem noPollAfterStop_append (evs : List Event) :
    ∀ r, hasComplete evs = false →
      noPollAfterStop (evs ++ r) = noPollAfterStop r := by
  induction evs with
  | nil => intro r _; rfl
  | cons e rest ih =>
    intro r h
    cases e <;> simp_all [hasComplete, noPollAfterStop]

/-- A completion-free trace trivially satisfies `noPollAfterStop`. -/
theorem noPollAfterStop_of_no_complete (l : List Event)
    (h : hasComplete l = false) : noPollAfterStop l = true := by
  have h2 := noPollAfterStop_append l [] h
  rw [List.append_nil] at h2
  rw [h2]
  rfl

/-- C6: once the shutdown sequence has completed (`shutdownComplete` in
the trace) the driver never polls again: after the first completion event
the remainder of any driver-loop trace contains no poll event. -/
theorem no_poll_after_stopped (ct : String) (iv : Nat) (sigs : Nat → Bool)
    (durs : Nat → Nat) (fuel k : Nat) (s : LoopState) :
    noPollAfterStop (runLoop ct iv sigs durs fuel k s) = true := by
  induction fuel generalizing k s with
  | zero => rfl
  | succ n ih =>
    cases hli : s.loggedIn with
    | false => simp [runLoop, hli, noPollAfterStop]
    | true =>
      obtain ⟨rest, hev, hno, hyes⟩ := tick_spec ct iv (sigs k) (durs k) s
      have hsleep : hasComplete (if ct = "fixed" then [Event.sleep iv] else [])
          = false := by
        by_cases hct : ct = "fixed" <;> simp [hct, hasComplete]
      cases htk : tick ct iv (sigs k) (durs k) s with
      | mk os evs =>
        have hevs : (tick ct iv (sigs k) (durs k) s).2 = evs := by rw [htk]
        have hos : (tick ct iv (sigs k) (durs k) s).1 = os := by rw [htk]
        rw [hevs] at hev
        rw [hos] at hno hyes
        cases hb : (s.killNow || sigs k) with
        | false =>
          obtain ⟨hrest, hstate⟩ := hno hb
          subst hrest
          have hnc : hasComplete evs = false := by
            rw [hev, hasComplete_append, hsleep]
            simp [hasComplete]
          cases os with
          | some s2 =>
            rw [runLoop, if_pos hli, htk]
            rw [noPollAfterStop_append evs _ hnc]
            exact ih (k + 1) s2
          | none =>
            rw [runLoop, if_pos hli, htk]
            exact noPollAfterStop_of_no_complete evs hnc
        | true =>
          rcases hyes hb with ⟨db2, hsd, hstate⟩ | ⟨hsd, hstate⟩
          · obtain ⟨devs, hrestEq, hall⟩ := shutdown_ok_events s.db db2 rest hsd
            cases os with
            | none => exact absurd hstate (by simp)
            | some s2 =>
              have hs2 : s2.loggedIn = false := by
                have := Option.some.inj hstate
                rw [this]
              rw [runLoop, if_pos hli, htk]
              show noPollAfterStop
                (evs ++ runLoop ct iv sigs durs n (k + 1) s2) = true
              rw [runLoop_stopped ct iv sigs durs n (k + 1) s2 hs2,
                List.append_nil, hev, hrestEq]
              have hre : (if ct = "fixed" then [Event.sleep iv] else [])
                    ++ Event.pollStart
                        (if ct = "fixed" then s.time + iv else s.time)
                      :: Event.dbSaveExpiryCheck :: Event.menusTaskChecking
                      :: Event.updatesExpiryCheck
                      :: Event.killCheck (s.killNow || sigs k)
                      :: (devs ++ [Event.setLoggedInFalse, Event.logout,
                          Event.saveAllDBs (db2.map Prod.fst),
                          Event.shutdownComplete, Event.httpClientClose])
                  = ((if ct = "fixed" then [Event.sleep iv] else [])
                    ++ Event.pollStart
                        (if ct = "fixed" then s.time + iv else s.time)
                      :: Event.dbSaveExpiryCheck :: Event.menusTaskChecking
                      :: Event.updatesExpiryCheck
                      :: Event.killCheck (s.killNow || sigs k) :: devs)
                    ++ [Event.setLoggedInFalse, Event.logout,
                        Event.saveAllDBs (db2.map Prod.fst),
                        Event.shutdownComplete, Event.httpClientClose] := by
                simp [List.cons_append, List.append_assoc]
              rw [hre]
              have hfront : hasComplete
                  ((if ct = "fixed" then [Event.sleep iv] else [])
                    ++ Event.pollStart
                        (if ct = "fixed" then s.time + iv else s.time)
                      :: Event.dbSaveExpiryCheck :: Event.menusTaskChecking
                      :: Event.updatesExpiryCheck
                      :: Event.killCheck (s.killNow || sigs k) :: devs)
                  = false := by
                rw [hasComplete_append, hsleep]
                simp [hasComplete, hasComplete_all_delete devs hall]
              rw [noPollAfterStop_append _ _ hfront]
              rfl
          · have hall := shutdown_error_events s.db rest hsd
            cases os with
            | some s2 => exact absurd hstate (by simp)
            | none =>
              rw [runLoop, if_pos hli, htk]
              apply noPollAfterStop_of_no_complete
              rw [hev, hasComplete_append, hsleep]
              simp [hasComplete, hasComplete_all_delete rest hall]

/-- `pollStartTimes` distributes over append. -/
theorem pollStartTimes_append (l1 l2 : List Event) :
    pollStartTimes (l1 ++ l2) = pollStartTimes l1 ++ pollStartTimes l2 := by
  induction l1 with
  | nil => rfl
  | cons e rest ih => cases e <;> simp [pollStartTimes, ih]

/-- Delete events carry no poll-start marker. -/
theorem pollStartTimes_all_delete (evs : List Event)
    (h : evs.all isDeleteEvent = true) : pollStartTimes evs = [] := by
  induction evs with
  | nil => rfl
  | cons e rest ih =>
    rw [List.all_cons, Bool.and_eq_true] at h
    cases e <;> simp_all [isDeleteEvent, pollStartTimes]

/-- Under the fixed strategy, each iteration starts its poll sequence
exactly one interval after the iteration began. -/
theorem tick_pollStartTimes (iv : Nat) (sig : Bool) (dur : Nat) (s : LoopState) :
    pollStartTimes (tick "fixed" iv sig dur s).2 = [s.time + iv] := by
  obtain ⟨rest, hev, hno, hyes⟩ := tick_spec "fixed" iv sig dur s
  have hrest : pollStartTimes rest = [] := by
    cases hb : (s.killNow || sig) with
    | false =>
      rw [(hno hb).1]
      rfl
    | true =>
      rcases hyes hb with ⟨db2, hsd, -⟩ | ⟨hsd, -⟩
      · obtain ⟨devs, hrestEq, hall⟩ := shutdown_ok_events s.db db2 rest hsd
        rw [hrestEq, pollStartTimes_append, pollStartTimes_all_delete devs hall]
        rfl
      · exact pollStartTimes_all_delete rest (shutdown_error_events s.db rest hsd)
  rw [hev]
  simp [pollStartTimes, pollStartTimes_append, hrest]

/-- Along any fixed-strategy run, the poll-start instants respect the
interval, and all of them are at least one interval after the current
clock. -/
theorem runLoop_poll_times (iv : Nat) (sigs : Nat → Bool) (durs : Nat → Nat) :
    ∀ fuel k s,
      gapsAtLeast iv (pollStartTimes
        (runLoop "fixed" iv sigs durs fuel k s)) = true ∧
      ∀ t ∈ pollStartTimes (runLoop "fixed" iv sigs durs fuel k s),
        s.time + iv ≤ t := by
  intro fuel
  induction fuel with
  | zero =>
    intro k s
    exact ⟨rfl, by intro t ht; simp [runLoop, pollStartTimes] at ht⟩
  | succ n ih =>
    intro k s
    cases hli : s.loggedIn with
    | false =>
      refine ⟨?_, ?_⟩ <;> simp [runLoop, hli, pollStartTimes, gapsAtLeast]
    | true =>
      have htpt := tick_pollStartTimes iv (sigs k) (durs k) s
      obtain ⟨rest, hev, hno, hyes⟩ := tick_spec "fixed" iv (sigs k) (durs k) s
      cases htk : tick "fixed" iv (sigs k) (durs k) s with
      | mk os evs =>
        have hevs2 : pollStartTimes evs = [s.time + iv] := by rw [← htpt, htk]
        have hos : (tick "fixed" iv (sigs k) (durs k) s).1 = os := by rw [htk]
        rw [hos] at hno hyes
        cases os with
        | some s2 =>
          have hs2time : s2.time = s.time + iv + durs k := by
            cases hb : (s.killNow || sigs k) with
            | false =>
              have h2 := Option.some.inj (hno hb).2
              rw [h2]
              simp
            | true =>
              rcases hyes hb with ⟨db2, -, hstate⟩ | ⟨-, hstate⟩
              · have h2 := Option.some.inj hstate
                rw [h2]
                simp
              · exact absurd hstate (by simp)
          rw [runLoop, if_pos hli, htk]
          show gapsAtLeast iv (pollStartTimes
              (evs ++ runLoop "fixed" iv sigs durs n (k + 1) s2)) = true ∧
            ∀ t ∈ pollStartTimes
              (evs ++ runLoop "fixed" iv sigs durs n (k + 1) s2),
              s.time + iv ≤ t
          rw [pollStartTimes_append, hevs2]
          obtain ⟨ihg, ihb⟩ := ih (k + 1) s2
          constructor
          · cases hrt : pollStartTimes
                (runLoop "fixed" iv sigs durs n (k + 1) s2) with
            | nil => simp [gapsAtLeast]
            | cons b l =>
              have hb1 : s2.time + iv ≤ b :=
                ihb b (by rw [hrt]; exact List.mem_cons_self _ _)
              have hg : gapsAtLeast iv (b :: l) = true := by
                rw [← hrt]
                exact ihg
              rw [List.singleton_append]
              show (decide (s.time + iv + iv ≤ b) && gapsAtLeast iv (b :: l)) = true
              rw [hg, Bool.and_true, decide_eq_true_eq]
              rw [hs2time] at hb1
              omega
          · intro t ht
            rw [List.singleton_append, List.mem_cons] at ht
            rcases ht with h1 | h2
            · omega
            · have := ihb t h2
              rw [hs2time] at this
              omega
        | none =>
          rw [runLoop, if_pos hli, htk]
          show gapsAtLeast iv (pollStartTimes evs) = true ∧
            ∀ t ∈ pollStartTimes evs, s.time + iv ≤ t
          rw [hevs2]
          refine ⟨rfl, ?_⟩
          intro t ht
          rw [List.mem_singleton] at ht
          omega

/-- C9: between any two consecutive poll sequences the driver waits the
full configured tick interval — every iteration's trace begins with the
interval sleep followed by the poll start one interval after the
iteration began, and along any run no two poll-sequence start instants
are less than one interval apart. -/
theorem ticks_at_least_interval_apart (iv : Nat) (sigs : Nat → Bool)
    (durs : Nat → Nat) (fuel k : Nat) (s : LoopState) :
    (∀ sig dur s2, ∃ rest,
      (tick cfg_timedTaskCheckingType iv sig dur s2).2
        = Event.sleep iv :: Event.pollStart (s2.time + iv) :: rest) ∧
    gapsAtLeast iv (pollStartTimes
      (runLoop cfg_timedTaskCheckingType iv sigs durs fuel k s)) = true := by
  constructor
  · intro sig dur s2
    obtain ⟨rest, hev, -, -⟩ := tick_spec "fixed" iv sig dur s2
    refine ⟨Event.dbSaveExpiryCheck :: Event.menusTaskChecking
      :: Event.updatesExpiryCheck
      :: Event.killCheck (s2.killNow || sig) :: rest, ?_⟩
    simpa [cfg_timedTaskCheckingType] using hev
  · exact (runLoop_poll_times iv sigs durs fuel k s).1

/-- Unscheduling only removes entries. -/
theorem unschedule_sublist (coll : List STask) (i : Nat) :
    (unschedule coll i).Sublist coll :=
  List.filter_sublist coll

/-- A batch of unschedules only removes entries. -/
theorem foldl_unschedule_sublist (rs : List Nat) :
    ∀ coll : List STask, (rs.foldl unschedule coll).Sublist coll := by
  induction rs with
  | nil => intro coll; exact List.Sublist.refl _
  | cons r rest ih =>
    intro coll
    exact (ih (unschedule coll r)).trans (unschedule_sublist coll r)

/-- A poll pass only removes tasks from the collection, never adds. -/
theorem runDue_sublist (s : List Nat) :
    ∀ coll : List STask, (runDue s coll).1.Sublist coll := by
  induction s with
  | nil => intro coll; exact List.Sublist.refl _
  | cons i rest ih =>
    intro coll
    cases hf : coll.find? (fun t => t.tid == i) with
    | none =>
      simp only [runDue, hf]
      exact ih coll
    | some t =>
      simp only [runDue, hf]
      exact (ih (t.removals.foldl unschedule coll)).trans
        (foldl_unschedule_sublist t.removals coll)

/-- The ids fired by a pass are a sublist of the due snapshot: each visits
at most once, in snapshot order. -/
theorem runDue_fired_sublist (s : List Nat) :
    ∀ coll : List STask, (runDue s coll).2.Sublist s := by
  induction s with
  | nil => intro coll; exact List.Sublist.refl _
  | cons i rest ih =>
    intro coll
    cases hf : coll.find? (fun t => t.tid == i) with
    | none =>
      simp only [runDue, hf]
      exact (ih coll).trans (List.sublist_cons_self _ _)
    | some t =>
      simp only [runDue, hf]
      exact (ih (t.removals.foldl unschedule coll)).cons₂ i

/-- A task of the due snapshot is never silently skipped: either it fires
during the pass, or it has been unscheduled (it is absent from the final
collection). -/
theorem runDue_no_skip (s : List Nat) :
    ∀ (coll : List STask), ∀ i ∈ s,
      i ∈ (runDue s coll).2 ∨ i ∉ (runDue s coll).1.map STask.tid := by
  induction s with
  | nil =>
    intro coll i hi
    cases hi
  | cons j rest ih =>
    intro coll i hi
    cases hf : coll.find? (fun t => t.tid == j) with
    | none =>
      simp only [runDue, hf]
      rcases List.mem_cons.mp hi with heq | hmem
      · subst heq
        right
        intro hmem2
        have hid : i ∈ coll.map STask.tid :=
          ((runDue_sublist rest coll).map STask.tid).subset hmem2
        obtain ⟨t, ht, htid⟩ := List.mem_map.mp hid
        have hnone := List.find?_eq_none.mp hf t ht
        rw [htid] at hnone
        simp at hnone
      · exact ih coll i hmem
    | some t =>
      simp only [runDue, hf]
      rcases List.mem_cons.mp hi with heq | hmem
      · subst heq
        exact Or.inl (List.mem_cons_self _ _)
      · rcases ih (t.removals.foldl unschedule coll) i hmem with h1 | h2
        · exact Or.inl (List.mem_cons_of_mem _ h1)
        · exact Or.inr h2

/-- The due snapshot of a collection with distinct ids has no repeats. -/
theorem dueIds_nodup (now : Nat) (coll : List STask)
    (h : (coll.map STask.tid).Nodup) : (dueIds now coll).Nodup :=
  List.Nodup.sublist ((List.filter_sublist coll).map STask.tid) h

/-- C3: for every collection with distinct ids and any pattern of
unschedules performed by the firing callbacks (including self-removal),
a poll pass never double-fires a task (the fired list has no repeats and
only contains due ids), and never skips a still-active due task: every id
of the due snapshot either fires during the pass or has been unscheduled
by the time the pass ends. -/
theorem pollDue_no_skip_no_double_fire (now : Nat) (coll : List STask)
    (h : (coll.map STask.tid).Nodup) :
    (pollDue now coll).2.Nodup ∧
    (∀ i ∈ (pollDue now coll).2, i ∈ dueIds now coll) ∧
    (∀ i ∈ dueIds now coll,
      i ∈ (pollDue now coll).2 ∨ i ∉ (pollDue now coll).1.map STask.tid) := by
  refine ⟨?_, ?_, ?_⟩
  · exact List.Nodup.sublist (runDue_fired_sublist (dueIds now coll) coll)
      (dueIds_nodup now coll h)
  · intro i hi
    exact (runDue_fired_sublist (dueIds now coll) coll).subset hi
  · intro i hi
    exact runDue_no_skip (dueIds now coll) coll i hi

/-- C3 witness: two due tasks, the first of which unschedules both itself
and the second from within its callback; the pass fires without repeats
and the second task counts as removed, not skipped. -/
theorem pollDue_no_skip_witness :
    (pollDue 0 [⟨1, 0, [1, 2]⟩, ⟨2, 0, []⟩]).2.Nodup ∧
    ((2 : Nat) ∈ (pollDue 0 [⟨1, 0, [1, 2]⟩, ⟨2, 0, []⟩]).2 ∨
      (2 : Nat) ∉ (pollDue 0 [⟨1, 0, [1, 2]⟩, ⟨2, 0, []⟩]).1.map STask.tid) :=
  ⟨(pollDue_no_skip_no_double_fire 0 [⟨1, 0, [1, 2]⟩, ⟨2, 0, []⟩]
      (by decide)).1,
   (pollDue_no_skip_no_double_fire 0 [⟨1, 0, [1, 2]⟩, ⟨2, 0, []⟩]
      (by decide)).2.2 2 (by decide)⟩

end Based
